import Mathlib

/-!
Verification of the RunPod keep-alive service (`keep_alive.py`).

The service is a timed loop: each cycle it probes the health of a fixed
list of serverless endpoints and sends a minimal warm-up request to each
endpoint that reports ready or idle workers, recording a per-endpoint
outcome string in a process-wide status record that a small web handler
reads back.

The embedding below models each outbound HTTP call by its observable
result (`HttpResult`): a timeout, some other raised exception, or a
response carrying a status code and either a parsed body or a parse
failure.  The functions `check_health`, `ping_endpoint`, the cycle loop
and the `/` route handler are translated statement by statement from the
source.  Side effects on the shared `status` dictionary are made explicit
by passing the record through the loop, and the outbound calls a run
performs are collected in a trace of `CallEvent`s.
-/

/-- Result of one outbound HTTP call, as the Python `requests` layer
surfaces it to the caller: a `requests.exceptions.Timeout`, some other
exception (connection failure, and also a `response.json()` parse failure
is folded into the generic exception branch by the source's
`except Exception`), or a response with its integer status code and the
outcome of parsing its body as JSON. -/
inductive HttpResult (α : Type) where
  | timeout
  | exn (detail : String)
  | resp (statusCode : Nat) (body : Except String α)

/-- The worker-count object nested under `"workers"` in a health response;
every field is optional because the source reads each with
`workers.get(field, 0)`. -/
structure WorkerCounts where
  ready : Option Int
  idle : Option Int
  initializing : Option Int
deriving DecidableEq, Repr

/-- A parsed health-response body; `workers` is optional because the
source reads it with `data.get("workers", {})`. -/
structure HealthBody where
  workers : Option WorkerCounts
deriving DecidableEq, Repr

/-- The default for a missing `"workers"` object: the empty dict, from
which every count reads back as 0. -/
def emptyWorkers : WorkerCounts :=
  { ready := none, idle := none, initializing := none }

/-- The reported ready count with the source's defaulting applied. -/
def readyCount (b : HealthBody) : Int :=
  ((b.workers.getD emptyWorkers).ready).getD 0

/-- The reported idle count with the source's defaulting applied. -/
def idleCount (b : HealthBody) : Int :=
  ((b.workers.getD emptyWorkers).idle).getD 0

/-- The reported initializing count with the source's defaulting applied. -/
def initCount (b : HealthBody) : Int :=
  ((b.workers.getD emptyWorkers).initializing).getD 0

/-- `check_health` of the source: GET the endpoint's `/health` resource,
default the missing fields, and report capacity iff `ready > 0 or idle > 0`;
any exception (timeout included) is caught and yields `False`.  The
response's status code is never consulted. -/
def check_health (r : HttpResult HealthBody) : Bool :=
  match r with
  | HttpResult.resp _ (Except.ok data) =>
      let workers := data.workers.getD emptyWorkers
      let ready := workers.ready.getD 0
      let idle := workers.idle.getD 0
      decide (ready > 0) || decide (idle > 0)
  | _ => false

/-- The bounded wait the source passes to `requests.post` in
`ping_endpoint` (`timeout=120`). -/
def PING_TIMEOUT_SECONDS : Nat := 120

/-- The bounded wait the source passes to `requests.get` in
`check_health` (`timeout=30`). -/
def HEALTH_TIMEOUT_SECONDS : Nat := 30

/-- `ping_endpoint` of the source: POST a minimal `runsync` request and
render the outcome as the string the loop records.  The body is parsed
before the status check (`data = response.json()` precedes
`if response.status_code == 200`), so a parse failure lands in the
generic exception branch. -/
def ping_endpoint (r : HttpResult Unit) : String :=
  match r with
  | HttpResult.timeout => "TIMEOUT"
  | HttpResult.exn e => "ERROR: " ++ e
  | HttpResult.resp code body =>
      match body with
      | Except.error e => "ERROR: " ++ e
      | Except.ok _ => if code = 200 then "OK" else "HTTP " ++ toString code

/-- Claim C1: `check_health` returns true iff the response parsed and the
reported ready count or idle count (missing fields defaulting to 0) is
positive; it returns false on a timeout, any other exception, or a body
that fails to parse, and the initializing count never influences the
result. -/
theorem check_health_spec :
    (∀ r : HttpResult HealthBody, check_health r = true ↔
      ∃ code b, r = HttpResult.resp code (Except.ok b) ∧
        (readyCount b > 0 ∨ idleCount b > 0)) ∧
    (∀ (code : Nat) (w : WorkerCounts) (i j : Option Int),
      check_health (HttpResult.resp code (Except.ok
        { workers := some { w with initializing := i } })) =
      check_health (HttpResult.resp code (Except.ok
        { workers := some { w with initializing := j } }))) ∧
    check_health HttpResult.timeout = false ∧
    (∀ d, check_health (HttpResult.exn d) = false) ∧
    (∀ code d, check_health (HttpResult.resp code (Except.error d)) = false) ∧
    readyCount { workers := none } = 0 ∧
    idleCount { workers := none } = 0 ∧
    (∀ i, check_health (HttpResult.resp 200 (Except.ok
      { workers := some { ready := none, idle := none, initializing := some i } }))
      = false) := by
  refine ⟨?_, ?_, rfl, fun d => rfl, fun code d => rfl, rfl, rfl, ?_⟩
  · intro r
    cases r with
    | timeout => simp [check_health]
    | exn d => simp [check_health]
    | resp code body =>
      cases body with
      | error e => simp [check_health]
      | ok data =>
        simp only [check_health, Bool.or_eq_true, decide_eq_true_eq]
        constructor
        · intro h
          exact ⟨code, data, rfl, h⟩
        · rintro ⟨code', b', heq, h⟩
          cases heq
          exact h
  · intro code w i j
    simp [check_health]
  · intro i
    simp [check_health]

/-- Claim C3 counterexample: a response with the 2xx status code 201 and a
parseable body is recorded as `HTTP 201`, not as the ok tag, although the
claim calls every 2xx-equivalent status a success. -/
theorem ping_endpoint_201_not_ok :
    200 ≤ 201 ∧ 201 < 300 ∧
    ping_endpoint (HttpResult.resp 201 (Except.ok ())) = "HTTP 201" ∧
    ping_endpoint (HttpResult.resp 201 (Except.ok ())) ≠ "OK" := by
  refine ⟨by decide, by decide, rfl, by decide⟩

/-- Claim C3 (amended): `ping_endpoint` returns one of four outcome tags,
determined by the call's result: `OK` when the response parses and its
status code is exactly 200 (not any other 2xx code), `HTTP <code>` when
the response parses and the code differs from 200, `TIMEOUT` when the
bounded wait (120 seconds) elapses, and `ERROR: <detail>` for any other
exception or a body that fails to parse. -/
theorem ping_endpoint_outcomes :
    PING_TIMEOUT_SECONDS = 120 ∧
    (∀ u, ping_endpoint (HttpResult.resp 200 (Except.ok u)) = "OK") ∧
    (∀ code u, ping_endpoint (HttpResult.resp code (Except.ok u)) =
      if code = 200 then "OK" else "HTTP " ++ toString code) ∧
    ping_endpoint HttpResult.timeout = "TIMEOUT" ∧
    (∀ d, ping_endpoint (HttpResult.exn d) = "ERROR: " ++ d) ∧
    (∀ code d, ping_endpoint (HttpResult.resp code (Except.error d)) =
      "ERROR: " ++ d) ∧
    (∀ r : HttpResult Unit,
      ping_endpoint r = "OK" ∨ ping_endpoint r = "TIMEOUT" ∨
      (∃ code : Nat, code ≠ 200 ∧ ping_endpoint r = "HTTP " ++ toString code) ∨
      (∃ d : String, ping_endpoint r = "ERROR: " ++ d)) := by
  refine ⟨rfl, fun u => rfl, fun code u => rfl, rfl, fun d => rfl,
    fun code d => rfl, ?_⟩
  intro r
  cases r with
  | timeout => exact Or.inr (Or.inl rfl)
  | exn d => exact Or.inr (Or.inr (Or.inr ⟨d, rfl⟩))
  | resp code body =>
    cases body with
    | error e => exact Or.inr (Or.inr (Or.inr ⟨e, rfl⟩))
    | ok u =>
      by_cases h : code = 200
      · subst h; exact Or.inl rfl
      · exact Or.inr (Or.inr (Or.inl ⟨code, h, by simp [ping_endpoint, h]⟩))

/-- An entry of the source's `ENDPOINTS` list: RunPod endpoint id and
display name. -/
structure Endpoint where
  id : String
  name : String
deriving DecidableEq, Repr

/-- The configured endpoint list, compiled into the process. -/
def ENDPOINTS : List Endpoint :=
  [ { id := "hk5uyae5jtmhmy", name := "Sam (vLLM)" },
    { id := "or07okhb435hr6", name := "fast-worker" },
    { id := "2ufs6kt7vd3r6v", name := "quality-worker" } ]

/-- The process-wide `status` record: cycle counter, last-cycle timestamp
and the per-endpoint result dictionary, modelled as an insertion-ordered
association list exactly as a Python dict behaves. -/
structure Status where
  ping_count : Nat
  last_ping : Option String
  results : List (String × String)
deriving DecidableEq, Repr

/-- The record's initial value, `{"ping_count": 0, "last_ping": None,
"results": {}}`. -/
def initialStatus : Status :=
  { ping_count := 0, last_ping := none, results := [] }

/-- Python dict update `d[k] = v`: replace the value at an existing key in
place, else append the new key at the end. -/
def insertResult : List (String × String) → String → String → List (String × String)
  | [], k, v => [(k, v)]
  | p :: rest, k, v =>
      if p.1 == k then (k, v) :: rest else p :: insertResult rest k v

/-- Python dict lookup `d.get(k)` on the results dictionary. -/
def lookupResult : List (String × String) → String → Option String
  | [], _ => none
  | p :: rest, k => if p.1 == k then some p.2 else lookupResult rest k

/-- The result string the loop records when the health probe reports no
capacity. -/
def SKIPPED_NO_WORKERS : String := "SKIPPED (no workers)"

/-- An outbound call the loop makes, for the call trace: a health probe or
a warm-up ping, tagged with the endpoint id it targets. -/
inductive CallEvent where
  | probe (endpointId : String)
  | ping (endpointId : String)
deriving DecidableEq, Repr

/-- The environment one cycle runs in: what each endpoint's health query
and warm-up ping would return, and the cycle's wall-clock timestamp
(`datetime.now().isoformat()`). -/
structure Env where
  health : String → HttpResult HealthBody
  ping : String → HttpResult Unit
  now : String

/-- The loop body for one endpoint (lines 106-117 of the source): probe
the endpoint's health; if capacity is available ping it and record the
ping's outcome, else record `SKIPPED (no workers)` without pinging.  The
state carries the status record and the trace of outbound calls. -/
def stepEndpoint (env : Env) (acc : Status × List CallEvent) (ep : Endpoint) :
    Status × List CallEvent :=
  let calls := acc.2 ++ [CallEvent.probe ep.id]
  if check_health (env.health ep.id) then
    ({ acc.1 with
        results := insertResult acc.1.results ep.name (ping_endpoint (env.ping ep.id)) },
      calls ++ [CallEvent.ping ep.id])
  else
    ({ acc.1 with
        results := insertResult acc.1.results ep.name SKIPPED_NO_WORKERS },
      calls)

/-- The outcome string one endpoint's pass records, as a function of the
environment. -/
def endpointOutcome (env : Env) (ep : Endpoint) : String :=
  if check_health (env.health ep.id) then ping_endpoint (env.ping ep.id)
  else SKIPPED_NO_WORKERS

/-- The writes that open a cycle: increment the counter and stamp the
cycle start time. -/
def cycleInit (env : Env) (acc : Status × List CallEvent) :
    Status × List CallEvent :=
  ({ acc.1 with
      ping_count := acc.1.ping_count + 1,
      last_ping := some env.now },
    acc.2)

/-- One full cycle of `keep_alive_loop`: the opening writes, then the
endpoint loop in configured order. -/
def runCycle (env : Env) (acc : Status × List CallEvent) :
    Status × List CallEvent :=
  ENDPOINTS.foldl (stepEndpoint env) (cycleInit env acc)

/-- A finite prefix of the infinite loop: the cycles run one after the
other, each in its own environment. -/
def runCycles (envs : List Env) (acc : Status × List CallEvent) :
    Status × List CallEvent :=
  envs.foldl (fun a e => runCycle e a) acc

/-- Python truthiness of the credential read from the environment:
`not RUNPOD_API_KEY` is true when the variable is unset and also when it
is set to the empty string. -/
def truthy : Option String → Bool
  | none => false
  | some s => !s.isEmpty

/-- `keep_alive_loop`: if the credential is not truthy, log and return
before any cycle; otherwise run the cycles.  The returned pair is the
final status record and the trace of all outbound calls made. -/
def keep_alive_loop (api_key : Option String) (envs : List Env) :
    Status × List CallEvent :=
  if truthy api_key then runCycles envs (initialStatus, [])
  else (initialStatus, [])

/-- The JSON document the `/` route returns. -/
structure HomeResponse where
  status : String
  service : String
  ping_count : Nat
  last_ping : Option String
  endpoints : List String
  results : List (String × String)
deriving DecidableEq, Repr

/-- The `/` route handler `home`: a pure read of the status record. -/
def home (st : Status) : HomeResponse :=
  { status := "running",
    service := "RunPod Keep-Alive",
    ping_count := st.ping_count,
    last_ping := st.last_ping,
    endpoints := ENDPOINTS.map Endpoint.name,
    results := st.results }

/-- Inserting a key makes it look up to the inserted value. -/
theorem lookup_insert_self (rs : List (String × String)) (k v : String) :
    lookupResult (insertResult rs k v) k = some v := by
  induction rs with
  | nil => simp [insertResult, lookupResult]
  | cons p rest ih =>
    by_cases h : p.1 = k
    · simp [insertResult, lookupResult, h]
    · simp [insertResult, lookupResult, h, ih]

/-- Inserting one key leaves every other key's lookup unchanged. -/
theorem lookup_insert_other (rs : List (String × String)) (k v k' : String)
    (hne : k ≠ k') :
    lookupResult (insertResult rs k v) k' = lookupResult rs k' := by
  induction rs with
  | nil => simp [insertResult, lookupResult, hne]
  | cons p rest ih =>
    by_cases h : p.1 = k
    · simp [insertResult, lookupResult, h, hne]
    · simp [insertResult, lookupResult, h, ih]

/-- The status component `stepEndpoint` produces: only the results
dictionary changes, receiving the endpoint's outcome. -/
theorem stepEndpoint_fst (env : Env) (acc : Status × List CallEvent)
    (ep : Endpoint) :
    (stepEndpoint env acc ep).1 =
      { acc.1 with
          results := insertResult acc.1.results ep.name (endpointOutcome env ep) } := by
  unfold stepEndpoint endpointOutcome
  by_cases h : check_health (env.health ep.id) <;> simp [h]

/-- The endpoint loop never touches the cycle counter. -/
theorem fold_ping_count (env : Env) (eps : List Endpoint)
    (acc : Status × List CallEvent) :
    (eps.foldl (stepEndpoint env) acc).1.ping_count = acc.1.ping_count := by
  induction eps generalizing acc with
  | nil => rfl
  | cons e es ih => rw [List.foldl_cons, ih, stepEndpoint_fst]

/-- The endpoint loop never touches the last-cycle timestamp. -/
theorem fold_last_ping (env : Env) (eps : List Endpoint)
    (acc : Status × List CallEvent) :
    (eps.foldl (stepEndpoint env) acc).1.last_ping = acc.1.last_ping := by
  induction eps generalizing acc with
  | nil => rfl
  | cons e es ih => rw [List.foldl_cons, ih, stepEndpoint_fst]

/-- One cycle adds exactly 1 to the counter. -/
theorem runCycle_ping_count (env : Env) (acc : Status × List CallEvent) :
    (runCycle env acc).1.ping_count = acc.1.ping_count + 1 := by
  unfold runCycle
  rw [fold_ping_count]
  rfl

/-- One cycle stamps the environment's timestamp. -/
theorem runCycle_last_ping (env : Env) (acc : Status × List CallEvent) :
    (runCycle env acc).1.last_ping = some env.now := by
  unfold runCycle
  rw [fold_last_ping]
  rfl

/-- Running a list of cycles adds its length to the counter. -/
theorem runCycles_ping_count (envs : List Env) (acc : Status × List CallEvent) :
    (runCycles envs acc).1.ping_count = acc.1.ping_count + envs.length := by
  induction envs generalizing acc with
  | nil => rfl
  | cons e es ih =>
    show (runCycles es (runCycle e acc)).1.ping_count = _
    rw [ih, runCycle_ping_count, List.length_cons]
    omega

/-- After a non-empty run of cycles, the timestamp is the last cycle's. -/
theorem runCycles_last_ping (envs : List Env) (env : Env)
    (acc : Status × List CallEvent) :
    (runCycles envs (runCycle env acc)).1.last_ping =
      some (envs.getLastD env).now := by
  induction envs generalizing env acc with
  | nil => exact runCycle_last_ping env acc
  | cons e es ih =>
    show (runCycles es (runCycle e (runCycle env acc))).1.last_ping = _
    rw [ih, List.getLastD_cons]

/-- Claim C4: with the credential absent the loop logs and returns before
the first cycle: the counter stays 0, the timestamp stays `None`, the
results dictionary stays empty and the call trace is empty. -/
theorem missing_key_no_cycles :
    (∀ envs : List Env, keep_alive_loop none envs = (initialStatus, [])) ∧
    initialStatus.ping_count = 0 ∧
    initialStatus.last_ping = none ∧
    initialStatus.results = [] := by
  exact ⟨fun envs => rfl, rfl, rfl, rfl⟩

/-- Claim C10: the empty-string credential is exactly as falsy as the
absent one, so the loop returns before the first cycle with nothing done. -/
theorem empty_key_like_absent :
    truthy (some "") = truthy none ∧
    (∀ envs : List Env,
      keep_alive_loop (some "") envs = keep_alive_loop none envs) ∧
    (∀ envs : List Env, keep_alive_loop (some "") envs = (initialStatus, [])) ∧
    (∀ envs : List Env, (keep_alive_loop (some "") envs).1.ping_count = 0) := by
  exact ⟨rfl, fun envs => rfl, fun envs => rfl, fun envs => rfl⟩

/-- Claim C5: the counter starts at 0, each cycle adds exactly 1 to it at
cycle start, and after any finite run it equals the number of cycles run —
strictly increasing, never reset. -/
theorem cycle_counter_spec :
    initialStatus.ping_count = 0 ∧
    (∀ (env : Env) (acc : Status × List CallEvent),
      (runCycle env acc).1.ping_count = acc.1.ping_count + 1) ∧
    (∀ envs : List Env,
      (runCycles envs (initialStatus, [])).1.ping_count = envs.length) := by
  refine ⟨rfl, runCycle_ping_count, fun envs => ?_⟩
  rw [runCycles_ping_count]
  simp [initialStatus]

/-- Claim C8: the last-cycle timestamp is `None` from process start until
a cycle runs, every cycle stamps it with that cycle's time, and after any
non-empty run it is the last cycle's timestamp, hence non-null. -/
theorem last_ping_lifecycle :
    initialStatus.last_ping = none ∧
    (∀ (env : Env) (acc : Status × List CallEvent),
      (runCycle env acc).1.last_ping = some env.now) ∧
    (∀ (env : Env) (envs : List Env),
      (runCycles (env :: envs) (initialStatus, [])).1.last_ping =
        some (envs.getLastD env).now) := by
  exact ⟨rfl, runCycle_last_ping,
    fun env envs => runCycles_last_ping envs env (initialStatus, [])⟩







/-- The trace component `stepEndpoint` produces: one probe, then a ping
exactly when the probe reported capacity. -/
theorem stepEndpoint_snd (env : Env) (acc : Status × List CallEvent)
    (ep : Endpoint) :
    (stepEndpoint env acc ep).2 =
      acc.2 ++ [CallEvent.probe ep.id] ++
        (if check_health (env.health ep.id) then [CallEvent.ping ep.id] else []) := by
  unfold stepEndpoint
  by_cases h : check_health (env.health ep.id) <;> simp [h]

/-- The endpoint loop does not touch the lookup of a key that is no
endpoint's display name. -/
theorem fold_lookup_frame (env : Env) (eps : List Endpoint)
    (acc : Status × List CallEvent) (k : String)
    (h : ∀ e ∈ eps, e.name ≠ k) :
    lookupResult (eps.foldl (stepEndpoint env) acc).1.results k =
      lookupResult acc.1.results k := by
  induction eps generalizing acc with
  | nil => rfl
  | cons e es ih =>
    rw [List.foldl_cons,
      ih _ (fun e' he' => h e' (List.mem_cons_of_mem _ he')),
      stepEndpoint_fst]
    exact lookup_insert_other _ _ _ _ (h e (List.mem_cons_self _ _))

/-- After the endpoint loop, an endpoint of the list (its display names
being distinct) looks up to exactly its outcome of this pass. -/
theorem fold_lookup_outcome (env : Env) (eps : List Endpoint)
    (acc : Status × List CallEvent) (ep : Endpoint)
    (hmem : ep ∈ eps) (hnd : (eps.map Endpoint.name).Nodup) :
    lookupResult (eps.foldl (stepEndpoint env) acc).1.results ep.name =
      some (endpointOutcome env ep) := by
  induction eps generalizing acc with
  | nil => cases hmem
  | cons e es ih =>
    rw [List.map_cons, List.nodup_cons] at hnd
    rw [List.foldl_cons]
    rcases List.mem_cons.mp hmem with heq | hmem'
    · subst heq
      rw [fold_lookup_frame env es _ ep.name
        (fun e' he' hc => hnd.1 (hc ▸ List.mem_map_of_mem Endpoint.name he'))]
      rw [stepEndpoint_fst]
      exact lookup_insert_self _ _ _
    · exact ih _ hmem' hnd.2

/-- After one full cycle, an endpoint of the configured list looks up to
exactly its outcome of that cycle. -/
theorem runCycle_lookup (env : Env) (acc : Status × List CallEvent)
    (ep : Endpoint) (hmem : ep ∈ ENDPOINTS) :
    lookupResult (runCycle env acc).1.results ep.name =
      some (endpointOutcome env ep) :=
  fold_lookup_outcome env ENDPOINTS (cycleInit env acc) ep hmem (by decide)

/-- A ping in the endpoint loop's trace was already in the incoming trace
or belongs to a listed endpoint whose probe reported capacity. -/
theorem ping_in_fold_trace (env : Env) (eps : List Endpoint)
    (acc : Status × List CallEvent) (i : String)
    (h : CallEvent.ping i ∈ (eps.foldl (stepEndpoint env) acc).2) :
    CallEvent.ping i ∈ acc.2 ∨
      ∃ ep, ep ∈ eps ∧ ep.id = i ∧ check_health (env.health ep.id) = true := by
  induction eps generalizing acc with
  | nil => exact Or.inl h
  | cons e es ih =>
    rw [List.foldl_cons] at h
    rcases ih _ h with h' | ⟨ep, hep, hid, hh⟩
    · rw [stepEndpoint_snd] at h'
      by_cases hc : check_health (env.health e.id)
      · simp [hc] at h'
        rcases h' with h1 | h2
        · exact Or.inl h1
        · subst h2
          exact Or.inr ⟨e, List.mem_cons_self _ _, rfl, hc⟩
      · simp [hc] at h'
        exact Or.inl h' 
    · exact Or.inr ⟨ep, List.mem_cons_of_mem _ hep, hid, hh⟩

/-- Claim C2: in any cycle, an endpoint whose health probe reports no
capacity is never pinged (no ping for it appears in the cycle's call
trace) and its recorded outcome is exactly `SKIPPED (no workers)`. -/
theorem cycle_skips_unhealthy (env : Env) (st : Status) (ep : Endpoint)
    (hmem : ep ∈ ENDPOINTS) (hu : check_health (env.health ep.id) = false) :
    CallEvent.ping ep.id ∉ (runCycle env (st, [])).2 ∧
    lookupResult (runCycle env (st, [])).1.results ep.name =
      some SKIPPED_NO_WORKERS := by
  constructor
  · intro hin
    rcases ping_in_fold_trace env ENDPOINTS (cycleInit env (st, [])) ep.id hin
      with h | ⟨ep', hep', hid, hh⟩
    · simp [cycleInit] at h
    · simp only [ENDPOINTS, List.mem_cons, List.not_mem_nil, or_false] at hmem hep'
      rcases hmem with rfl | rfl | rfl <;> rcases hep' with rfl | rfl | rfl <;>
        simp_all
  · rw [runCycle_lookup env (st, []) ep hmem]
    simp [endpointOutcome, hu]

/-- A concrete environment in which every health probe raises a
connection error, so no endpoint reports capacity. -/
def coldEnv : Env :=
  { health := fun _ => HttpResult.exn "connection refused",
    ping := fun _ => HttpResult.timeout,
    now := "2026-01-01T00:00:00" }

/-- Witness for C2: in a cycle run against `coldEnv`, the first configured
endpoint is not pinged and records the skipped tag. -/
theorem cycle_skips_unhealthy_witness :
    CallEvent.ping "hk5uyae5jtmhmy" ∉ (runCycle coldEnv (initialStatus, [])).2 ∧
    lookupResult (runCycle coldEnv (initialStatus, [])).1.results "Sam (vLLM)" =
      some SKIPPED_NO_WORKERS :=
  cycle_skips_unhealthy coldEnv initialStatus
    { id := "hk5uyae5jtmhmy", name := "Sam (vLLM)" } (by decide) rfl

/-- The key list of the results dictionary, in insertion order. -/
def resultKeys (rs : List (String × String)) : List String := rs.map Prod.fst

/-- What a dict update does to the key list: nothing when the key exists,
else it appends the key. -/
def keyInsert (ks : List String) (k : String) : List String :=
  if k ∈ ks then ks else ks ++ [k]

/-- `insertResult` acts on keys as `keyInsert`. -/
theorem keys_insert (rs : List (String × String)) (k v : String) :
    resultKeys (insertResult rs k v) = keyInsert (resultKeys rs) k := by
  induction rs with
  | nil => simp [insertResult, resultKeys, keyInsert]
  | cons p rest ih =>
    by_cases h : p.1 = k
    · simp [insertResult, resultKeys, keyInsert, h]
    · by_cases h2 : k ∈ resultKeys rest
      · simp_all [insertResult, resultKeys, keyInsert, Ne.symm h]
      · simp_all [insertResult, resultKeys, keyInsert, Ne.symm h]

/-- The endpoint loop acts on the key list by `keyInsert` over the display
names, independently of the probes' and pings' results. -/
theorem fold_keys (env : Env) (eps : List Endpoint)
    (acc : Status × List CallEvent) :
    resultKeys (eps.foldl (stepEndpoint env) acc).1.results =
      eps.foldl (fun ks e => keyInsert ks e.name) (resultKeys acc.1.results) := by
  induction eps generalizing acc with
  | nil => rfl
  | cons e es ih =>
    rw [List.foldl_cons, List.foldl_cons, ih]
    simp [stepEndpoint_fst, keys_insert]

/-- One cycle acts on the key list by `keyInsert` over the display names. -/
theorem runCycle_keys (env : Env) (acc : Status × List CallEvent) :
    resultKeys (runCycle env acc).1.results =
      ENDPOINTS.foldl (fun ks e => keyInsert ks e.name)
        (resultKeys acc.1.results) := by
  unfold runCycle
  rw [fold_keys]
  rfl

/-- Once the key list is exactly the configured display names, every
further cycle keeps it so. -/
theorem runCycles_keys_stable (envs : List Env) (acc : Status × List CallEvent)
    (h : resultKeys acc.1.results = ENDPOINTS.map Endpoint.name) :
    resultKeys (runCycles envs acc).1.results = ENDPOINTS.map Endpoint.name := by
  induction envs generalizing acc with
  | nil => exact h
  | cons e es ih =>
    exact ih _ (by rw [runCycle_keys, h]; decide)

/-- Claim C6: after any completed cycle the results dictionary holds
exactly one entry per configured display name — its key list equals the
configured name list, which has no duplicates, so nothing is missing,
duplicated, or from outside the list. -/
theorem results_keys_exact :
    (∀ (env : Env) (envs : List Env),
      resultKeys (runCycles (env :: envs) (initialStatus, [])).1.results =
        ENDPOINTS.map Endpoint.name) ∧
    (ENDPOINTS.map Endpoint.name).Nodup := by
  refine ⟨fun env envs => ?_, by decide⟩
  show resultKeys (runCycles envs (runCycle env (initialStatus, []))).1.results = _
  exact runCycles_keys_stable envs _ (by rw [runCycle_keys]; decide)

/-- After a run of cycles ending in some cycle, a configured endpoint
looks up to its outcome of the last cycle run. -/
theorem runCycles_lookup_last (envs : List Env) (env : Env)
    (acc : Status × List CallEvent) (ep : Endpoint) (hmem : ep ∈ ENDPOINTS) :
    lookupResult (runCycles envs (runCycle env acc)).1.results ep.name =
      some (endpointOutcome (envs.getLastD env) ep) := by
  induction envs generalizing env acc with
  | nil => exact runCycle_lookup env acc ep hmem
  | cons e es ih =>
    show lookupResult
        (runCycles es (runCycle e (runCycle env acc))).1.results ep.name = _
    rw [ih e (runCycle env acc), List.getLastD_cons]

/-- Claim C7: the root status query is a pure read — the cycle counter,
timestamp and results it reports are exactly the store's, and the
reported outcome of each configured endpoint is exactly what the most
recently completed cycle wrote for it. -/
theorem home_reports_last_cycle (env : Env) (envs : List Env) (ep : Endpoint)
    (hmem : ep ∈ ENDPOINTS) :
    (home (runCycles (env :: envs) (initialStatus, [])).1).ping_count =
      (runCycles (env :: envs) (initialStatus, [])).1.ping_count ∧
    (home (runCycles (env :: envs) (initialStatus, [])).1).results =
      (runCycles (env :: envs) (initialStatus, [])).1.results ∧
    (home (runCycles (env :: envs) (initialStatus, [])).1).last_ping =
      (runCycles (env :: envs) (initialStatus, [])).1.last_ping ∧
    lookupResult (home (runCycles (env :: envs) (initialStatus, [])).1).results
        ep.name = some (endpointOutcome (envs.getLastD env) ep) := by
  refine ⟨rfl, rfl, rfl, ?_⟩
  show lookupResult
      (runCycles envs (runCycle env (initialStatus, []))).1.results ep.name = _
  exact runCycles_lookup_last envs env (initialStatus, []) ep hmem

/-- Witness for C7: after one cycle against `coldEnv`, the root query
reports the first endpoint's outcome of that cycle. -/
theorem home_reports_last_cycle_witness :
    lookupResult (home (runCycles [coldEnv] (initialStatus, [])).1).results
        "Sam (vLLM)" =
      some (endpointOutcome coldEnv
        { id := "hk5uyae5jtmhmy", name := "Sam (vLLM)" }) :=
  (home_reports_last_cycle coldEnv []
    { id := "hk5uyae5jtmhmy", name := "Sam (vLLM)" } (by decide)).2.2.2

/-- The sequence of individual writes one cycle performs on the shared
`status` record, in program order: `status["ping_count"] += 1`, then
`status["last_ping"] = ...`, then one `status["results"][name] = result`
per endpoint.  Between any two of these the source holds no lock, so a
concurrent reader can run there; each Python statement is taken as
atomic. -/
def cycleWrites (env : Env) : List (Status → Status) :=
  (fun st => { st with ping_count := st.ping_count + 1 }) ::
  (fun st => { st with last_ping := some env.now }) ::
  ENDPOINTS.map (fun ep => fun st =>
    { st with results := insertResult st.results ep.name (endpointOutcome env ep) })

/-- The record a reader sees after the cycle's first `k` writes have been
applied. -/
def observeAfter (env : Env) (st : Status) (k : Nat) : Status :=
  ((cycleWrites env).take k).foldl (fun s f => f s) st

/-- The endpoint loop's effect on the status record equals applying the
per-endpoint result writes in order. -/
theorem fold_map_write (env : Env) (eps : List Endpoint)
    (acc : Status × List CallEvent) :
    (eps.foldl (stepEndpoint env) acc).1 =
      (eps.map (fun ep => fun st =>
        { st with
            results := insertResult st.results ep.name (endpointOutcome env ep) })).foldl
        (fun s f => f s) acc.1 := by
  induction eps generalizing acc with
  | nil => rfl
  | cons e es ih =>
    rw [List.foldl_cons, List.map_cons, List.foldl_cons, ih]
    rw [stepEndpoint_fst]

/-- Applying all of a cycle's writes in order is exactly running the
cycle: the write list is a faithful decomposition of `runCycle`. -/
theorem cycleWrites_run (env : Env) (st : Status) :
    observeAfter env st (cycleWrites env).length = (runCycle env (st, [])).1 := by
  unfold observeAfter
  rw [List.take_length]
  unfold runCycle
  rw [fold_map_write]
  rfl

/-- A concrete environment in which every endpoint reports a ready worker
and every ping succeeds with status 200. -/
def warmEnv : Env :=
  { health := fun _ => HttpResult.resp 200 (Except.ok
      { workers := some { ready := some 1, idle := none, initializing := none } }),
    ping := fun _ => HttpResult.resp 200 (Except.ok ()),
    now := "2026-01-01T00:50:00" }

/-- Claim C9 fails on the code: the source guards the shared `status`
record with no lock, and a reader interleaved after the first write of a
cycle (the counter increment) observes the new cycle's counter together
with the previous cycle's results — a record equal to no single write
point.  Concretely: cycle 1 runs against `coldEnv` (everything skipped),
cycle 2 against `warmEnv` (everything pinged `OK`); the observation after
write 1 of cycle 2 has cycle 2's counter, cycle 1's results, and differs
from both the pre-cycle and the post-cycle record. -/
theorem torn_read_observable :
    (runCycle coldEnv (initialStatus, [])).1.ping_count = 1 ∧
    (observeAfter warmEnv (runCycle coldEnv (initialStatus, [])).1 1).ping_count =
      (runCycle warmEnv ((runCycle coldEnv (initialStatus, [])).1, [])).1.ping_count ∧
    (observeAfter warmEnv (runCycle coldEnv (initialStatus, [])).1 1).results =
      (runCycle coldEnv (initialStatus, [])).1.results ∧
    observeAfter warmEnv (runCycle coldEnv (initialStatus, [])).1 1 ≠
      (runCycle coldEnv (initialStatus, [])).1 ∧
    observeAfter warmEnv (runCycle coldEnv (initialStatus, [])).1 1 ≠
      (runCycle warmEnv ((runCycle coldEnv (initialStatus, [])).1, [])).1 := by
  decide
